import Mathlib

/-!
Verification of the NetDiag bounded-concurrency port-probe engine.

The definitions below are a shallow embedding of the Rust sources:
  * `src/utils/ports.rs`   (port-specification parser, common-port preset)
  * `src/commands/scan.rs` (scan command: setup phase, semaphore-gated
    probe scheduler, timeout race, open-port aggregation)
  * `src/commands/report.rs` (`test_port_connectivity`)

Rust strings are modelled as lists of characters; `str::split`,
`str::trim` and `u16::from_str` are re-implemented structurally so that
every definition evaluates inside the kernel.  The scheduler of
`scan_command` (tokio tasks gated by a counting semaphore, aggregating
into a mutex-protected set) is modelled as a small-step transition
system over an explicit state.
-/

namespace NetDiag

/-! ## Character-level string primitives (models of Rust `str` methods) -/

/-- Model of Rust `str::split(sep)` for a one-character separator:
splitting the empty string yields one empty field, and separators at the
ends yield empty fields. -/
def splitOnChar (sep : Char) : List Char → List (List Char)
  | [] => [[]]
  | c :: rest =>
    match splitOnChar sep rest with
    | [] => [[c]]
    | g :: gs => if c = sep then [] :: g :: gs else (c :: g) :: gs

/-- ASCII whitespace recognizer (the fragment of Rust `char::is_whitespace`
exercised by port specifications). -/
def isWsChar (c : Char) : Bool :=
  c = ' ' || c = '\t' || c = '\n' || c = '\r'

/-- Model of Rust `str::trim`: drop whitespace from both ends. -/
def trimChars (cs : List Char) : List Char :=
  ((cs.dropWhile isWsChar).reverse.dropWhile isWsChar).reverse

/-- Numeric value of a digit run, most significant first. -/
def digitsToNat (cs : List Char) : Nat :=
  cs.foldl (fun a c => a * 10 + (c.toNat - 48)) 0

/-- Model of Rust `str::parse::<u16>()`: an optional leading plus sign,
then one or more ASCII digits, value at most `65535`; anything else
(empty string, stray whitespace, minus sign, overflow) fails. -/
def parseU16 (s : List Char) : Option Nat :=
  let cs := match s with
    | '+' :: rest => rest
    | cs => cs
  match cs with
  | [] => none
  | _ =>
    if cs.all Char.isDigit then
      let v := digitsToNat cs
      if v ≤ 65535 then some v else none
    else none

/-! ## Sorted-set primitives

`parse_port_range` accumulates ports in a `HashSet<u16>` and finally
sorts the collected set.  The observable output depends only on the set
of inserted values, so the model collects the raw insertions in a list
and computes the sorted duplicate-free list of its elements at the end. -/

/-- Insert into a strictly ascending list, keeping it ascending and
duplicate-free. -/
def insSorted (x : Nat) : List Nat → List Nat
  | [] => [x]
  | y :: ys =>
    if x < y then x :: y :: ys
    else if x = y then y :: ys
    else y :: insSorted x ys

/-- Sorted duplicate-free list of the elements of `l`: the model of
draining a `HashSet` into a vector and sorting it. -/
def sortedDedup (l : List Nat) : List Nat := l.foldr insSorted []

/-- Insertion into a weakly ascending list keeping duplicates; used to
model `Vec::sort_unstable`. -/
def insLe (x : Nat) : List Nat → List Nat
  | [] => [x]
  | y :: ys => if x ≤ y then x :: y :: ys else y :: insLe x ys

/-- Model of `Vec::sort_unstable` (a stable result is irrelevant for
`Nat` keys): sort keeping duplicates. -/
def sortList (l : List Nat) : List Nat := l.foldr insLe []

/-! ## The port-specification parser (`src/utils/ports.rs`) -/

/-- Error cases of `parse_port_range`, one constructor per distinct
`anyhow!` message in the source. -/
inductive ParseErr where
  | invalidRangeFormat (part : String)
  | invalidStartPort (s : String)
  | invalidEndPort (s : String)
  | startGreaterThanEnd (s e : Nat)
  | invalidPortNumber (s : String)
  | portZero
  | noPortsSpecified
deriving DecidableEq, Repr

/-- Inclusive range `start..=end` of Rust, as a list. -/
def rangeIncl (a b : Nat) : List Nat := List.range' a (b + 1 - a)

/-- The `for part in port_spec.split(',')` loop of `parse_port_range`,
threading the accumulated insertions.  Each comma-separated token is
trimmed; a token containing a dash must split into exactly two fields,
both parsed as `u16` with `start <= end` (note: the fields are *not*
trimmed again, and `0` is *not* rejected on this branch); a plain token
is parsed as `u16` and must be nonzero. -/
def parseParts : List (List Char) → List Nat → Except ParseErr (List Nat)
  | [], acc => .ok acc
  | rawPart :: rest, acc =>
    let part := trimChars rawPart
    if part.elem '-' then
      match splitOnChar '-' part with
      | [s1, s2] =>
        match parseU16 s1 with
        | none => .error (.invalidStartPort ⟨s1⟩)
        | some start =>
          match parseU16 s2 with
          | none => .error (.invalidEndPort ⟨s2⟩)
          | some stop =>
            if stop < start then .error (.startGreaterThanEnd start stop)
            else parseParts rest (acc ++ rangeIncl start stop)
      | _ => .error (.invalidRangeFormat ⟨part⟩)
    else
      match parseU16 part with
      | none => .error (.invalidPortNumber ⟨part⟩)
      | some port =>
        if port = 0 then .error .portZero
        else parseParts rest (acc ++ [port])

/-- Body of `parse_port_range` on an already-extracted character list:
run the token loop, fail with `noPortsSpecified` if nothing was
collected, otherwise deliver the sorted deduplicated ports. -/
def parsePortsCore (cs : List Char) : Except ParseErr (List Nat) :=
  match parseParts (splitOnChar ',' cs) [] with
  | .error e => .error e
  | .ok acc =>
    if acc.isEmpty then .error .noPortsSpecified
    else .ok (sortedDedup acc)

/-- Model of `parse_port_range` from `src/utils/ports.rs`. -/
def parse_port_range (spec : String) : Except ParseErr (List Nat) :=
  parsePortsCore spec.data

/-- Model of `get_common_ports` from `src/utils/ports.rs`. -/
def get_common_ports : List Nat :=
  [20, 21, 22, 23, 25, 53, 80, 110, 143, 443, 993, 995, 1433, 3306, 5432, 6379, 27017]

/-! ## The scan command setup phase (`src/commands/scan.rs`, before probing) -/

/-- ASCII lower-casing on character codes, the kernel of Rust
`eq_ignore_ascii_case`. -/
def asciiLowerNat (n : Nat) : Nat :=
  if 65 ≤ n ∧ n ≤ 90 then n + 32 else n

/-- Model of Rust `str::eq_ignore_ascii_case`. -/
def eqIgnoreAsciiCase (a b : List Char) : Bool :=
  a.map (fun c => asciiLowerNat c.toNat) == b.map (fun c => asciiLowerNat c.toNat)

/-- Port-list selection of `scan_command`: trim the specification; the
literal `common` (ASCII case-insensitively) yields the sorted preset,
anything else goes through `parse_port_range`. -/
def scanPortList (spec : String) : Except ParseErr (List Nat) :=
  let t := trimChars spec.data
  if eqIgnoreAsciiCase t ("common".data) then .ok (sortList get_common_ports)
  else parsePortsCore t

/-- Result of the pre-probe phase of `scan_command` (resolution, then
port-list selection).  The concurrency argument is carried through
untouched because the source performs no validation on it. -/
inductive SetupResult where
  | resolveFailed (msg : String)
  | parseFailed (e : ParseErr)
  | proceed (ports : List Nat) (concurrency : Nat)
deriving DecidableEq, Repr

/-- The pre-probe control flow of `scan_command`: a resolution failure
exits first, then a port-specification failure; otherwise the command
proceeds to the probe loop with the selected ports and the given
concurrency ceiling. -/
def scanSetup (resolveRes : Except String Unit) (spec : String) (concurrency : Nat) :
    SetupResult :=
  match resolveRes with
  | .error msg => .resolveFailed msg
  | .ok _ =>
    match scanPortList spec with
    | .error e => .parseFailed e
    | .ok ports => .proceed ports concurrency

/-- True on the two setup results that make `scan_command` return before
any probe is issued. -/
def setupEndsEarly : SetupResult → Bool
  | .proceed _ _ => false
  | _ => true

/-- True when the corresponding return path of `scan_command` prints an
error line first (both early paths do, the probing path does not). -/
def setupPrintsError : SetupResult → Bool
  | .resolveFailed _ => true
  | .parseFailed _ => true
  | .proceed _ _ => false

/-- Process-level result of `scan_command`: every return site of the
source function is a plain `Ok(())`, including the two early-error
paths. -/
def scanCommandReturn (r : SetupResult) : Except String Unit :=
  match r with
  | .resolveFailed _ => .ok ()
  | .parseFailed _ => .ok ()
  | .proceed _ _ => .ok ()

/-- Membership helper on `Except`. -/
def isErrB {ε α : Type} : Except ε α → Bool
  | .error _ => true
  | .ok _ => false

/-! ## The probe scheduler (`src/commands/scan.rs`, probe loop)

The issuing loop acquires one semaphore permit per port (in list
order), spawns a task holding the permit, and the task releases the
permit when it finishes, after optionally inserting its port into the
mutex-guarded open set.  The model is a small-step transition system;
`isOpen` abstracts the outcome of the timed TCP connect for each port. -/

/-- State of the probe scheduler: ports not yet issued, free semaphore
permits, ports whose task is in flight, the aggregated open-port set
(a sorted duplicate-free list, modelling the `HashSet` plus the final
sort), and the multiset of completed ports (the progress-bar ticks). -/
structure SchedState where
  pending : List Nat
  available : Nat
  inFlight : Multiset Nat
  openPorts : List Nat
  completed : Multiset Nat
deriving DecidableEq

/-- Initial scheduler state: all ports pending, `c` free permits,
nothing in flight, nothing recorded. -/
def initState (c : Nat) (ports : List Nat) : SchedState :=
  ⟨ports, c, 0, [], 0⟩

/-- One scheduler step.  `issue` is one iteration of the submission
loop: it needs a free permit, consumes it and moves the next pending
port into flight.  `complete` is the end of one spawned task: the probed
port leaves the in-flight multiset, its permit returns, the port is
added to the open set exactly when its probe succeeded, and the
completion is counted. -/
inductive Step (isOpen : Nat → Bool) : SchedState → SchedState → Prop
  | issue (p : Nat) (rest : List Nat) (a : Nat) (f : Multiset Nat)
      (o : List Nat) (d : Multiset Nat) :
      Step isOpen ⟨p :: rest, a + 1, f, o, d⟩ ⟨rest, a, p ::ₘ f, o, d⟩
  | complete (p : Nat) (pen : List Nat) (a : Nat) (f : Multiset Nat)
      (o : List Nat) (d : Multiset Nat) (hp : p ∈ f) :
      Step isOpen ⟨pen, a, f, o, d⟩
        ⟨pen, a + 1, f.erase p, if isOpen p then insSorted p o else o, p ::ₘ d⟩

/-- Reachability in the scheduler transition system. -/
inductive Reach (isOpen : Nat → Bool) (s0 : SchedState) : SchedState → Prop
  | refl : Reach isOpen s0 s0
  | tail {s t : SchedState} : Reach isOpen s0 s → Step isOpen s t → Reach isOpen s0 t

/-! ## The probe of `scan_command` (timeout race, lines 85-92) -/

/-- Result of racing a connect attempt against a deadline, the model of
`tokio::time::timeout(timeout, TcpStream::connect(addr))`: the branch
that finishes first wins.  `d` is the instant the connect attempt would
resolve (successfully or not), `tmo` the deadline. -/
inductive RaceResult where
  | completed (ok : Bool)
  | elapsed
deriving DecidableEq, Repr

/-- The timeout race: the connect result is delivered when it resolves
no later than the deadline, otherwise the deadline fires. -/
def timeoutRace (tmo d : Nat) (ok : Bool) : RaceResult :=
  if d ≤ tmo then .completed ok else .elapsed

/-- The `is_open` match of `scan_command`: only `Ok(Ok(_))` counts as
open; a connect error or an elapsed timeout both count as not open. -/
def scanProbeIsOpen (tmo d : Nat) (ok : Bool) : Bool :=
  match timeoutRace tmo d ok with
  | .completed true => true
  | .completed false => false
  | .elapsed => false

/-- Probe outcome taxonomy over the same match: success within the
deadline is `portOpen`, failure within the deadline is `portClosed`,
and an elapsed deadline is `timedOut`. -/
inductive Outcome where
  | portOpen
  | portClosed
  | timedOut
deriving DecidableEq, Repr

/-- Outcome classification of one scan probe. -/
def probeOutcome (tmo d : Nat) (ok : Bool) : Outcome :=
  match timeoutRace tmo d ok with
  | .completed true => .portOpen
  | .completed false => .portClosed
  | .elapsed => .timedOut

/-! ## The port-connectivity test of the report command
(`src/commands/report.rs`, `test_port_connectivity`) -/

/-- Observable behaviour of `test_port_connectivity`: whether parsing
failed, the ports actually probed, the open ports collected, and the
success flag. -/
structure PortTestModel where
  parseFailed : Bool
  attempted : List Nat
  openPorts : List Nat
  success : Bool
deriving DecidableEq, Repr

/-- Model of `test_port_connectivity`: parse the specification (an
error produces a failed test result), then probe only the first 100
parsed ports, collecting those whose timed connect succeeds; `isOpen`
abstracts the timed TCP connect. -/
def test_port_connectivity (isOpen : Nat → Bool) (ports_str : String) : PortTestModel :=
  match parse_port_range ports_str with
  | .error _ => ⟨true, [], [], false⟩
  | .ok ports =>
    let attempted := ports.take 100
    let opens := attempted.filter isOpen
    ⟨false, attempted, opens, !opens.isEmpty⟩

/-! ## Helper lemmas -/

theorem mem_insSorted (x q : Nat) (l : List Nat) :
    q ∈ insSorted x l ↔ q = x ∨ q ∈ l := by
  induction l with
  | nil => simp [insSorted]
  | cons y ys ih =>
    by_cases h1 : x < y
    · simp [insSorted, h1]
    · by_cases h2 : x = y
      · subst h2
        have hred : insSorted x (x :: ys) = x :: ys := by
          simp [insSorted, h1]
        rw [hred]
        simp only [List.mem_cons]
        tauto
      · simp only [insSorted, if_neg h1, if_neg h2, List.mem_cons, ih]
        tauto

/-- Induction principle for reachability. -/
theorem reach_inv {isOpen : Nat → Bool} {s0 s : SchedState} (P : SchedState → Prop)
    (h0 : P s0) (hstep : ∀ {u v : SchedState}, Step isOpen u v → P u → P v)
    (h : Reach isOpen s0 s) : P s := by
  induction h with
  | refl => exact h0
  | tail _ hs ih => exact hstep hs ih

/-- Combined scheduler invariant: the free permits and the in-flight
probes always sum to the ceiling; pending, in-flight and completed
ports partition the submitted list; and the open set holds exactly the
completed ports whose probe succeeded. -/
def Inv (isOpen : Nat → Bool) (c : Nat) (ports : List Nat) (s : SchedState) : Prop :=
  s.available + Multiset.card s.inFlight = c ∧
  (↑s.pending + s.inFlight + s.completed : Multiset Nat) = (↑ports : Multiset Nat) ∧
  ∀ q : Nat, q ∈ s.openPorts ↔ q ∈ s.completed ∧ isOpen q = true

theorem step_inv {isOpen : Nat → Bool} {c : Nat} {ports : List Nat} {s t : SchedState}
    (h : Step isOpen s t) (hi : Inv isOpen c ports s) : Inv isOpen c ports t := by
  obtain ⟨hg, hc, ho⟩ := hi
  cases h with
  | issue p rest a f o d =>
    refine ⟨?_, ?_, ho⟩
    · simp only [] at hg ⊢
      simp only [Multiset.card_cons]
      omega
    · simp only [] at hc ⊢
      rw [← hc]
      simp [← Multiset.cons_coe, Multiset.cons_add, Multiset.add_cons]
  | complete p pen a f o d hp =>
    refine ⟨?_, ?_, ?_⟩
    · simp only [] at hg ⊢
      have hcard : Multiset.card (f.erase p) = Multiset.card f - 1 := by
        rw [Multiset.card_erase_of_mem hp]
        rfl
      have hpos : 0 < Multiset.card f := Multiset.card_pos_iff_exists_mem.mpr ⟨p, hp⟩
      omega
    · simp only [] at hc ⊢
      rw [← hc, ← Multiset.cons_erase hp]
      simp [Multiset.cons_add, Multiset.add_cons]
    · intro q
      simp only [] at ho ⊢
      by_cases hio : isOpen p = true
      · rw [if_pos hio, mem_insSorted]
        rw [ho q, Multiset.mem_cons]
        constructor
        · rintro (rfl | ⟨hd, hq⟩)
          · exact ⟨Or.inl rfl, hio⟩
          · exact ⟨Or.inr hd, hq⟩
        · rintro ⟨(rfl | hd), hq⟩
          · exact Or.inl rfl
          · exact Or.inr ⟨hd, hq⟩
      · rw [if_neg hio, ho q, Multiset.mem_cons]
        constructor
        · rintro ⟨hd, hq⟩
          exact ⟨Or.inr hd, hq⟩
        · rintro ⟨(rfl | hd), hq⟩
          · exact absurd hq hio
          · exact ⟨hd, hq⟩

theorem reach_inv_holds {isOpen : Nat → Bool} {c : Nat} {ports : List Nat} {s : SchedState}
    (h : Reach isOpen (initState c ports) s) : Inv isOpen c ports s := by
  refine reach_inv (Inv isOpen c ports) ?_ (fun hs hi => step_inv hs hi) h
  refine ⟨?_, ?_, ?_⟩
  · simp [initState]
  · simp [initState]
  · intro q
    simp [initState]

/-- Progress: with a positive ceiling, a state that is not final (work
pending or probes in flight) always has a successor; probe failures
never wedge the scheduler. -/
theorem sched_progress {isOpen : Nat → Bool} {c : Nat} {ports : List Nat} {s : SchedState}
    (hc : 1 ≤ c) (h : Reach isOpen (initState c ports) s)
    (hne : s.pending ≠ [] ∨ s.inFlight ≠ 0) : ∃ t, Step isOpen s t := by
  obtain ⟨hg, -, -⟩ := reach_inv_holds h
  obtain ⟨pen, a, f, o, d⟩ := s
  by_cases hf : f = 0
  · subst hf
    have hpen : pen ≠ [] := by
      rcases hne with hne | hne
      · exact hne
      · exact absurd rfl hne
    obtain ⟨p, rest, rfl⟩ : ∃ p rest, pen = p :: rest := by
      cases pen with
      | nil => exact absurd rfl hpen
      | cons p rest => exact ⟨p, rest, rfl⟩
    have ha : a = c := by simpa using hg
    cases a with
    | zero => omega
    | succ n => exact ⟨_, Step.issue p rest n 0 o d⟩
  · obtain ⟨p, hp⟩ := Multiset.exists_mem_of_ne_zero hf
    exact ⟨_, Step.complete p pen a f o d hp⟩

/-- The step-1 ranges of the standard library are strictly ascending. -/
theorem chain'_lt_range' (s n : Nat) : List.Chain' (· < ·) (List.range' s n) := by
  induction n generalizing s with
  | zero => simp
  | succ n ih =>
    rw [List.range'_succ, List.chain'_cons']
    refine ⟨?_, ih (s + 1)⟩
    intro y hy
    rw [List.head?_range'] at hy
    cases n with
    | zero => simp at hy
    | succ m =>
      simp only [Nat.succ_ne_zero, if_false, Option.mem_def, Option.some_inj] at hy
      omega

/-- Sorting and deduplicating leaves a strictly ascending list
unchanged. -/
theorem sortedDedup_eq_self {l : List Nat} (h : List.Chain' (· < ·) l) :
    sortedDedup l = l := by
  induction l with
  | nil => rfl
  | cons x xs ih =>
    have hx : sortedDedup (x :: xs) = insSorted x (sortedDedup xs) := rfl
    rw [hx, ih h.tail]
    cases xs with
    | nil => rfl
    | cons y ys =>
      have hxy : x < y := (List.chain'_cons.mp h).1
      simp [insSorted, hxy]

/-- Evaluating the parser on the full-range specification used by the
report command with `detailed_scan`. -/
theorem parse_full_range :
    parse_port_range "1-65535" = .ok (sortedDedup (List.range' 1 65535)) := rfl

/-! ## Claim theorems -/

/-- C1 (code bug): evaluating `parse_port_range` at the failing input
`"0-5"`: the range branch never applies the zero check (it sits only on
the single-token branch), so the parse succeeds and port `0` appears in
the output, violating the `[1, 65535]` invariant that the single-token
branch itself enforces with its `Port number cannot be 0` error. -/
theorem parse_zero_range_accepted :
    parse_port_range "0-5" = .ok [0, 1, 2, 3, 4, 5] := rfl

/-- C5 counterexample: whitespace around the dash of a range token is
not trimmed.  The fields of `"80 - 90"` keep their surrounding spaces
after the dash split, `u16` parsing rejects `"80 "`, and the parse
fails, while `"80-90"` succeeds: they do not parse to the same result
as the claim states. -/
theorem dash_whitespace_not_trimmed :
    parse_port_range "80 - 90" = .error (.invalidStartPort "80 ") ∧
    parse_port_range "80-90" =
      .ok [80, 81, 82, 83, 84, 85, 86, 87, 88, 89, 90] :=
  ⟨rfl, rfl⟩

/-- C5 amended: whitespace around comma-separated tokens is trimmed, so
`" 80 , 443 "` parses exactly like `"80,443"`; but whitespace around the
dash of a range token is not trimmed, so `"80 - 90"` fails with an
invalid-endpoint error instead of parsing like `"80-90"`. -/
theorem token_whitespace_trimmed :
    parse_port_range " 80 , 443 " = parse_port_range "80,443" ∧
    parse_port_range "80,443" = .ok [80, 443] ∧
    parse_port_range "80 - 90" = .error (.invalidStartPort "80 ") :=
  ⟨rfl, rfl, rfl⟩

/-- C6 counterexample: the empty overall input does not fail with the
`NoPortsSpecified` class.  Splitting `""` on commas yields one empty
token, which fails `u16` parsing first, so the error is the token-level
`invalidPortNumber ""`. -/
theorem empty_input_error_class :
    parse_port_range "" = .error (.invalidPortNumber "") ∧
    parse_port_range "" ≠ .error .noPortsSpecified := by
  refine ⟨rfl, ?_⟩
  intro h
  have h2 := (rfl :
    parse_port_range "" = Except.error (ParseErr.invalidPortNumber "")).symm.trans h
  injection h2 with h3
  exact ParseErr.noConfusion h3

/-- C6 amended: the inputs `"0"`, `"65536"`, `"abc"`, `"443-80"`,
`"80-"` and `"-80"` all fail, and the empty overall input also fails,
but with the token-level invalid-port-number error for its single empty
token rather than with `noPortsSpecified`. -/
theorem invalid_inputs_fail :
    parse_port_range "0" = .error .portZero ∧
    parse_port_range "65536" = .error (.invalidPortNumber "65536") ∧
    parse_port_range "abc" = .error (.invalidPortNumber "abc") ∧
    parse_port_range "443-80" = .error (.startGreaterThanEnd 443 80) ∧
    parse_port_range "80-" = .error (.invalidEndPort "") ∧
    parse_port_range "-80" = .error (.invalidStartPort "") ∧
    parse_port_range "" = .error (.invalidPortNumber "") :=
  ⟨rfl, rfl, rfl, rfl, rfl, rfl, rfl⟩

/-- C7: a probe whose connect attempt resolves only after the deadline
is classified `timedOut` and never `portOpen`, and its port is not
marked open in the scan (`is_open` is false), even when the connect
would eventually have succeeded; conversely the race delivers the
connect result whenever it resolves within the deadline - whichever of
the two finishes first wins. -/
theorem timeout_never_open (tmo d : Nat) (ok : Bool) :
    (tmo < d →
      probeOutcome tmo d ok = .timedOut ∧
      probeOutcome tmo d ok ≠ .portOpen ∧
      scanProbeIsOpen tmo d ok = false) ∧
    (d ≤ tmo → timeoutRace tmo d ok = .completed ok) := by
  constructor
  · intro h
    have hr : timeoutRace tmo d ok = .elapsed := by
      unfold timeoutRace
      rw [if_neg (by omega)]
    refine ⟨?_, ?_, ?_⟩ <;> simp [probeOutcome, scanProbeIsOpen, hr]
  · intro h
    unfold timeoutRace
    rw [if_pos h]

/-- Witness for C7 at deadline 1 and connect time 5 (a connect that
would have succeeded), and at deadline 5 and connect time 1. -/
theorem timeout_never_open_witness :
    probeOutcome 1 5 true = .timedOut ∧
    scanProbeIsOpen 1 5 true = false ∧
    timeoutRace 5 1 true = .completed true :=
  ⟨((timeout_never_open 1 5 true).1 (by decide)).1,
   ((timeout_never_open 1 5 true).1 (by decide)).2.2,
   (timeout_never_open 5 1 true).2 (by decide)⟩

/-- C9: any specification whose trimmed form equals `common` ASCII
case-insensitively yields the built-in preset, never a parse error; the
delivered list is the preset sorted ascending, which is strictly
ascending and hence duplicate-free. -/
theorem common_preset (s : String)
    (h : eqIgnoreAsciiCase (trimChars s.data) ("common".data) = true) :
    scanPortList s =
      .ok [20, 21, 22, 23, 25, 53, 80, 110, 143, 443, 993, 995, 1433, 3306, 5432, 6379, 27017] ∧
    List.Chain' (· < ·)
      ([20, 21, 22, 23, 25, 53, 80, 110, 143, 443, 993, 995, 1433, 3306, 5432, 6379, 27017] : List Nat) := by
  constructor
  · have hsel : scanPortList s = .ok (sortList get_common_ports) := by
      simp [scanPortList, h]
    rw [hsel]
    rfl
  · norm_num [List.chain'_cons, List.chain'_singleton]

/-- Witness for C9 on the mixed-case padded literal. -/
theorem common_preset_witness :
    scanPortList " CoMMoN " =
      .ok [20, 21, 22, 23, 25, 53, 80, 110, 143, 443, 993, 995, 1433, 3306, 5432, 6379, 27017] :=
  (common_preset " CoMMoN " (by rfl)).1

/-- C10: the report command's port-connectivity test probes at most the
first 100 parsed ports, so for the `detailed_scan` specification
`"1-65535"` exactly the ports 1 through 100 are attempted, and no port
above 100 can appear in the open-port result. -/
theorem report_scan_first_100 (isOpen : Nat → Bool) :
    (test_port_connectivity isOpen "1-65535").attempted = List.range' 1 100 ∧
    ((test_port_connectivity isOpen "1-65535").openPorts.all
      fun p => decide (p ≤ 100)) = true := by
  have hp : parse_port_range "1-65535" = .ok (List.range' 1 65535) := by
    rw [parse_full_range, sortedDedup_eq_self (chain'_lt_range' 1 65535)]
  have htake : (List.range' 1 65535).take 100 = List.range' 1 100 := by
    have happ : List.range' 1 100 ++ List.range' 101 65435 = List.range' 1 65535 :=
      List.range'_append_1 1 100 65435
    have htl := List.take_left (List.range' 1 100) (List.range' 101 65435)
    rw [List.length_range'] at htl
    rw [← happ]
    exact htl
  have hmodel : test_port_connectivity isOpen "1-65535" =
      ⟨false, List.range' 1 100, (List.range' 1 100).filter isOpen,
        !((List.range' 1 100).filter isOpen).isEmpty⟩ := by
    unfold test_port_connectivity
    rw [hp]
    dsimp only
    rw [htake]
  rw [hmodel]
  refine ⟨rfl, ?_⟩
  rw [List.all_eq_true]
  intro p hpmem
  have hpm : p ∈ List.range' 1 100 := List.mem_of_mem_filter hpmem
  rw [List.mem_range'_1] at hpm
  simp only [decide_eq_true_eq]
  omega

/-- C2: along every run of the scheduler the number of in-flight probes
never exceeds the ceiling: each issue consumes one gate unit before the
launch and each completion returns its unit, so free permits plus
in-flight probes is conserved at `c`. -/
theorem inflight_bounded_by_ceiling (isOpen : Nat → Bool) (c : Nat) (ports : List Nat)
    (s : SchedState) (hc : 1 ≤ c) (hlen : c ≤ ports.length)
    (h : Reach isOpen (initState c ports) s) :
    Multiset.card s.inFlight ≤ c := by
  have hg := (reach_inv_holds h).1
  omega

/-- Witness for C2 at ceiling 1 with port list `[80]`, at the initial
state. -/
theorem inflight_bounded_by_ceiling_witness :
    Multiset.card (initState 1 [80]).inFlight ≤ 1 :=
  inflight_bounded_by_ceiling (fun _ => true) 1 [80] (initState 1 [80])
    (by decide) (by decide) Reach.refl

/-- C3 counterexample: a completed run over the single port `1` whose
probe fails leaves an empty open set: the final snapshot has size 0,
not 1, because `Closed` and `TimedOut` outcomes are never recorded -
the task only inserts on success. -/
theorem snapshot_misses_closed_port :
    Reach (fun _ => false) (initState 1 [1]) (SchedState.mk [] 1 0 [] (1 ::ₘ 0)) ∧
    (SchedState.mk [] 1 0 [] (1 ::ₘ 0)).pending = [] ∧
    (SchedState.mk [] 1 0 [] (1 ::ₘ 0)).inFlight = 0 ∧
    (SchedState.mk [] 1 0 [] (1 ::ₘ 0)).openPorts.length ≠ ([1] : List Nat).length := by
  refine ⟨?_, rfl, rfl, by decide⟩
  have h1 : Step (fun _ => false) (initState 1 [1]) (SchedState.mk [] 0 (1 ::ₘ 0) [] 0) :=
    Step.issue 1 [] 0 0 [] 0
  have h2 : Step (fun _ => false) (SchedState.mk [] 0 (1 ::ₘ 0) [] 0)
      (SchedState.mk [] 1 0 [] (1 ::ₘ 0)) :=
    @Step.complete (fun _ => false) 1 [] 0 (1 ::ₘ 0) [] 0 (Multiset.mem_cons_self 1 0)
  exact Reach.tail (Reach.tail Reach.refl h1) h2

/-- C3 amended: after the join barrier (nothing pending, nothing in
flight) every submitted probe has completed - the completion count
equals the number of submitted ports - but the snapshot records only
the `Open` outcomes: it contains exactly the submitted ports whose
probe succeeded, regardless of completion order. -/
theorem final_snapshot_open_only (isOpen : Nat → Bool) (c : Nat) (ports : List Nat)
    (s : SchedState) (h : Reach isOpen (initState c ports) s)
    (hpen : s.pending = []) (hfl : s.inFlight = 0) :
    Multiset.card s.completed = ports.length ∧
    ∀ q : Nat, q ∈ s.openPorts ↔ q ∈ ports ∧ isOpen q = true := by
  obtain ⟨-, hc, ho⟩ := reach_inv_holds h
  rw [hpen, hfl] at hc
  have hcomp : s.completed = (↑ports : Multiset Nat) := by simpa using hc
  constructor
  · rw [hcomp, Multiset.coe_card]
  · intro q
    rw [ho q, hcomp, Multiset.mem_coe]

/-- Witness for C3 on a completed run over port `80` with a succeeding
probe. -/
theorem final_snapshot_open_only_witness :
    Multiset.card (80 ::ₘ (0 : Multiset Nat)) = 1 := by
  have h1 : Step (fun _ => true) (initState 1 [80]) (SchedState.mk [] 0 (80 ::ₘ 0) [] 0) :=
    Step.issue 80 [] 0 0 [] 0
  have h2 : Step (fun _ => true) (SchedState.mk [] 0 (80 ::ₘ 0) [] 0)
      (SchedState.mk [] 1 0 (insSorted 80 []) (80 ::ₘ 0)) :=
    @Step.complete (fun _ => true) 80 [] 0 (80 ::ₘ 0) [] 0 (Multiset.mem_cons_self 80 0)
  exact (final_snapshot_open_only (fun _ => true) 1 [80]
    (SchedState.mk [] 1 0 (insSorted 80 []) (80 ::ₘ 0))
    (Reach.tail (Reach.tail Reach.refl h1) h2) rfl rfl).1

/-- C4 counterexample: an invocation with concurrency ceiling 0 is not
rejected - the setup phase performs no validation of the ceiling and
proceeds to the probe loop. -/
theorem ceiling_zero_not_rejected :
    scanSetup (.ok ()) "80" 0 = .proceed [80] 0 := rfl

/-- C4 amended: the ceiling is never validated; with ceiling 0 the
scheduler has no enabled transition at all, so every reachable state is
the initial state: the issuing loop blocks forever on the first gate
acquisition, no probe is ever started, and no error is reported. -/
theorem ceiling_zero_stuck (isOpen : Nat → Bool) (ports : List Nat) (s : SchedState)
    (h : Reach isOpen (initState 0 ports) s) : s = initState 0 ports := by
  induction h with
  | refl => rfl
  | tail hr hs ih =>
    rw [ih] at hs
    rw [(rfl : initState 0 ports = SchedState.mk ports 0 0 [] 0)] at hs
    cases hs with
    | complete p pen a f o d hp => exact absurd hp (Multiset.not_mem_zero p)

/-- Witness for C4 at port list `[80]`, via reflexive reachability. -/
theorem ceiling_zero_stuck_witness : initState 0 [80] = initState 0 [80] :=
  ceiling_zero_stuck (fun _ => true) [80] (initState 0 [80]) Reach.refl

/-- The scheduler has an enabled transition from `s`. -/
def CanStep (isOpen : Nat → Bool) (s : SchedState) : Prop :=
  ∃ t, Step isOpen s t

/-- C8: the command ends early exactly on the two error classes -
resolution failure and port-specification parse failure - and then an
error is printed while the process-level return value is still `Ok`;
and with a positive ceiling any non-final scheduler state has an
enabled transition whatever the probe outcomes are, so per-probe
failures never wedge the scan or its sibling probes. -/
theorem scan_error_policy :
    (∀ (res : Except String Unit) (spec : String) (conc : Nat),
      setupEndsEarly (scanSetup res spec conc) = (isErrB res || isErrB (scanPortList spec)) ∧
      setupPrintsError (scanSetup res spec conc) = setupEndsEarly (scanSetup res spec conc) ∧
      scanCommandReturn (scanSetup res spec conc) = .ok ()) ∧
    ∀ (isOpen : Nat → Bool) (c : Nat) (ports : List Nat) (s : SchedState),
      1 ≤ c → Reach isOpen (initState c ports) s →
      s.pending ≠ [] ∨ s.inFlight ≠ 0 → CanStep isOpen s := by
  constructor
  · intro res spec conc
    cases res with
    | error msg => exact ⟨rfl, rfl, rfl⟩
    | ok u =>
      cases hx : scanPortList spec with
      | error e =>
        refine ⟨?_, ?_, ?_⟩ <;>
          simp [scanSetup, hx, isErrB, setupEndsEarly, setupPrintsError, scanCommandReturn]
      | ok l =>
        refine ⟨?_, ?_, ?_⟩ <;>
          simp [scanSetup, hx, isErrB, setupEndsEarly, setupPrintsError, scanCommandReturn]
  · intro isOpen c ports s hc h hne
    exact sched_progress hc h hne

/-- Witness for C8: a failed resolution ends the invocation early, and
the scheduler at ceiling 1 with pending work has an enabled step. -/
theorem scan_error_policy_witness :
    setupEndsEarly (scanSetup (.error "resolve failed") "80" 100) =
      (isErrB (.error "resolve failed" : Except String Unit) || isErrB (scanPortList "80")) ∧
    CanStep (fun _ => true) (initState 1 [80]) :=
  ⟨(scan_error_policy.1 (.error "resolve failed") "80" 100).1,
   scan_error_policy.2 (fun _ => true) 1 [80] (initState 1 [80]) (by decide) Reach.refl
     (Or.inl (by decide))⟩

end NetDiag
